import Mathlib

/-!
Shallow embedding of the CHIP-8 interpreter core from `src/cpu.rs`
(`struct CPU` and its methods), together with theorems checking the
natural-language specification against it.

Machine integers are modelled as `Nat` with explicit `% 2^w` where the
Rust code wraps (`wrapping_add`, `overflowing_sub`, `<<=`), and bitwise
Rust operators are kept as the corresponding `Nat` bitwise operators.
Rust `panic!` sites (explicit panics, out-of-bounds array indexing and
debug-mode integer underflow) are modelled by `Except Err` results.
The thread-local random byte drawn by `set_rand` is passed in as an
explicit `rng` parameter of `execute`/`perform_cycle`.
-/

namespace Chip8

def MEM_SIZE : Nat := 0x1000
def ROM_START : Nat := 0x200
def ROM_SIZE : Nat := MEM_SIZE - ROM_START
def GFX_COLS : Nat := 64
def GFX_ROWS : Nat := 32
def FONT_LOC : Nat := 0x50
def FONT_NUM_ROWS : Nat := 5

/-- Error outcomes of the Rust code: `panic!("unknown opcode!")` versus
every other panic (array index out of bounds, arithmetic underflow,
or the explicit "cant draw sprite" panics). -/
inductive Err
  | invalidOpcode
  | fault
deriving DecidableEq

/-- `pub fn coords_to_index(x: u8, y: u8) -> usize`. -/
def coords_to_index (x y : Nat) : Nat := y * GFX_COLS + x

/-- `pub fn index_to_coords(i: u16) -> (usize, usize)`. -/
def index_to_coords (i : Nat) : Nat × Nat := (i % GFX_COLS, i / GFX_COLS)

/-- The `CPU` struct of `src/cpu.rs`.  Fixed-size arrays (`mem`, `regs`,
`keys`, `gfx`, `stack`) are modelled as total functions from `Nat`;
every access the Rust code performs is bounds-checked at its use site
(mirroring the panics of out-of-bounds indexing). -/
structure CPU where
  opcode : Nat
  mem : Nat → Nat
  regs : Nat → Nat
  keys : Nat → Bool
  gfx : Nat → Bool
  stack : Nat → Nat
  sp : Nat
  i : Nat
  pc : Nat
  delay_timer : Nat
  sound_timer : Nat
  ignore_keypress : Bool

/-- Pointwise update of an array modelled as a function. -/
def upd {α : Type} (f : Nat → α) (k : Nat) (v : α) : Nat → α :=
  fun j => if j = k then v else f j

def nibble2_usize (s : CPU) : Nat := (s.opcode &&& 0xF00) >>> 8

def nibble3_usize (s : CPU) : Nat := (s.opcode &&& 0xF0) >>> 4

def lower_4_val (s : CPU) : Nat := s.opcode &&& 0xF

def lower_8_val (s : CPU) : Nat := s.opcode &&& 0xFF

def lower_12_val (s : CPU) : Nat := s.opcode &&& 0xFFF

/-- `fn fetch_sprite_row(&self, i: usize) -> [bool; 8]` - a byte of
memory as 8 pixels, most significant bit first. -/
def fetch_sprite_row (s : CPU) (i : Nat) : List Bool :=
  [ decide (s.mem i &&& 0x80 = 0x80),
    decide (s.mem i &&& 0x40 = 0x40),
    decide (s.mem i &&& 0x20 = 0x20),
    decide (s.mem i &&& 0x10 = 0x10),
    decide (s.mem i &&& 0x08 = 0x08),
    decide (s.mem i &&& 0x04 = 0x04),
    decide (s.mem i &&& 0x02 = 0x02),
    decide (s.mem i &&& 0x01 = 0x01) ]

/-- `fn clear_screen` (opcode 00E0). -/
def clear_screen (s : CPU) : CPU := { s with gfx := fun _ => false }

/-- `fn subroutine_return` (opcode 00EE): `sp -= 1; pc = stack[sp]`.
The decrement underflows when `sp = 0`, and the stack access is out of
bounds when the decremented pointer is not below 16. -/
def subroutine_return (s : CPU) : Except Err CPU :=
  if s.sp = 0 then .error .fault
  else if s.sp - 1 < 16 then .ok { s with sp := s.sp - 1, pc := s.stack (s.sp - 1) }
  else .error .fault

/-- `fn jump` (opcode 1NNN, and 0NNN other than 00E0/00EE). -/
def jump (s : CPU) : CPU := { s with pc := lower_12_val s }

/-- `fn subroutine_call` (opcode 2NNN): `stack[sp] = pc; pc = opcode & 0xFFF;
sp += 1`.  The stack store is out of bounds when `sp` is not below 16. -/
def subroutine_call (s : CPU) : Except Err CPU :=
  if s.sp < 16 then
    .ok { s with stack := upd s.stack s.sp s.pc, pc := s.opcode &&& 0xFFF, sp := s.sp + 1 }
  else .error .fault

/-- `fn skip_if` (opcode 3XNN). -/
def skip_if (s : CPU) : CPU :=
  if s.regs (nibble2_usize s) = lower_8_val s then { s with pc := s.pc + 2 } else s

/-- `fn skip_if_not` (opcode 4XNN). -/
def skip_if_not (s : CPU) : CPU :=
  if s.regs (nibble2_usize s) ≠ lower_8_val s then { s with pc := s.pc + 2 } else s

/-- `fn skip_if_xy_eq` (opcode 5XY0). -/
def skip_if_xy_eq (s : CPU) : CPU :=
  if s.regs (nibble2_usize s) = s.regs (nibble3_usize s) then { s with pc := s.pc + 2 } else s

/-- `fn set_immediate` (opcode 6XNN). -/
def set_immediate (s : CPU) : CPU :=
  { s with regs := upd s.regs (nibble2_usize s) (lower_8_val s) }

/-- `fn add_immediate` (opcode 7XNN): 8-bit wrapping add, no flag. -/
def add_immediate (s : CPU) : CPU :=
  { s with regs := upd s.regs (nibble2_usize s) ((s.regs (nibble2_usize s) + lower_8_val s) % 256) }

/-- `fn set` (opcode 8XY0). -/
def set (s : CPU) : CPU :=
  { s with regs := upd s.regs (nibble2_usize s) (s.regs (nibble3_usize s)) }

/-- `fn or` (opcode 8XY1). -/
def or (s : CPU) : CPU :=
  { s with regs := upd s.regs (nibble2_usize s) (s.regs (nibble2_usize s) ||| s.regs (nibble3_usize s)) }

/-- `fn and` (opcode 8XY2). -/
def and (s : CPU) : CPU :=
  { s with regs := upd s.regs (nibble2_usize s) (s.regs (nibble2_usize s) &&& s.regs (nibble3_usize s)) }

/-- `fn xor` (opcode 8XY3). -/
def xor (s : CPU) : CPU :=
  { s with regs := upd s.regs (nibble2_usize s) (s.regs (nibble2_usize s) ^^^ s.regs (nibble3_usize s)) }

/-- `fn add` (opcode 8XY4): `(val, overflow) = VX.overflowing_add(VY);
regs[15] = overflow; VX = val` - both operands are read first, the flag
is written, then the destination (so a destination of VF is overwritten
by the wrapped sum). -/
def add (s : CPU) : CPU :=
  let a := s.regs (nibble2_usize s)
  let b := s.regs (nibble3_usize s)
  let val := (a + b) % 256
  let overflow : Nat := if 256 ≤ a + b then 1 else 0
  { s with regs := upd (upd s.regs 15 overflow) (nibble2_usize s) val }

/-- `fn sub_xy` (opcode 8XY5): `(val, overflow) = VX.overflowing_sub(VY);
regs[15] = !overflow; VX = val`. -/
def sub_xy (s : CPU) : CPU :=
  let a := s.regs (nibble2_usize s)
  let b := s.regs (nibble3_usize s)
  let val := (a + 256 - b) % 256
  let noborrow : Nat := if b ≤ a then 1 else 0
  { s with regs := upd (upd s.regs 15 noborrow) (nibble2_usize s) val }

/-- `fn right_shift` (opcode 8XY6): `regs[15] = VX & 1; VX >>= 1` - the
shift reads the register file after the flag write. -/
def right_shift (s : CPU) : CPU :=
  let r1 := upd s.regs 15 (s.regs (nibble2_usize s) &&& 0x1)
  { s with regs := upd r1 (nibble2_usize s) (r1 (nibble2_usize s) >>> 1) }

/-- `fn sub_yx` (opcode 8XY7): `(val, overflow) = VY.overflowing_sub(VX);
regs[15] = !overflow; VX = val`. -/
def sub_yx (s : CPU) : CPU :=
  let a := s.regs (nibble2_usize s)
  let b := s.regs (nibble3_usize s)
  let val := (b + 256 - a) % 256
  let noborrow : Nat := if a ≤ b then 1 else 0
  { s with regs := upd (upd s.regs 15 noborrow) (nibble2_usize s) val }

/-- `fn left_shift` (opcode 8XYE): `regs[15] = VX >> 7; VX <<= 1` - the
shift reads the register file after the flag write, and the `u8` shift
wraps modulo 256. -/
def left_shift (s : CPU) : CPU :=
  let r1 := upd s.regs 15 (s.regs (nibble2_usize s) >>> 7)
  { s with regs := upd r1 (nibble2_usize s) ((r1 (nibble2_usize s) <<< 1) % 256) }

/-- `fn skip_if_xy_neq` (opcode 9XY0). -/
def skip_if_xy_neq (s : CPU) : CPU :=
  if s.regs (nibble2_usize s) ≠ s.regs (nibble3_usize s) then { s with pc := s.pc + 2 } else s

/-- `fn set_i_immediate` (opcode ANNN). -/
def set_i_immediate (s : CPU) : CPU := { s with i := lower_12_val s }

/-- `fn jump_offset` (opcode BNNN). -/
def jump_offset (s : CPU) : CPU := { s with pc := lower_12_val s + s.regs 0 }

/-- `fn set_rand` (opcode CXNN); the random byte drawn from the thread
rng is the explicit `rng` argument, reduced to a byte. -/
def set_rand (rng : Nat) (s : CPU) : CPU :=
  { s with regs := upd s.regs (nibble2_usize s) ((rng % 256) &&& lower_8_val s) }

/-- One pixel store of the write-back loop of `draw_sprite`
(`for i in 0..8 { ... }`): recover `(x, y)` from the row's base index,
wrap `x + i` modulo 64 carrying the overflow into `y`, and store the
pixel only when the recombined index is inside the buffer. -/
def writePix (g : Nat → Bool) (gfx_i k : Nat) (v : Bool) : Nat → Bool :=
  let p := index_to_coords gfx_i
  let overflowed := (p.1 + k) / 64
  let x := (p.1 + k) % 64
  let y := p.2 + overflowed
  let wrapped_i := coords_to_index x y
  if wrapped_i < GFX_COLS * GFX_ROWS then upd g wrapped_i v else g

/-- The row loop of `fn draw_sprite` (`for row in vy..vy + height`),
recursing on the number of rows still to draw and carrying the current
row, the sprite memory cursor and the collision flag `ret`.  Reading the
sprite byte at `mem_i` is out of bounds at or beyond `MEM_SIZE`.  On
completion `regs[15] = ret as u8`. -/
def drawGo (vx : Nat) : Nat → Nat → Nat → Bool → CPU → Except Err CPU
  | 0, _, _, ret, s => .ok { s with regs := upd s.regs 15 (if ret then 1 else 0) }
  | n + 1, row, mem_i, ret, s =>
    if mem_i < MEM_SIZE then
      let gfx_i := coords_to_index vx row
      let sr := fetch_sprite_row s mem_i
      let dr : List Bool :=
        [ Bool.xor (sr.getD 0 false) (s.gfx (gfx_i % (GFX_ROWS * GFX_COLS))),
          Bool.xor (sr.getD 1 false) (s.gfx ((gfx_i + 1) % (GFX_ROWS * GFX_COLS))),
          Bool.xor (sr.getD 2 false) (s.gfx ((gfx_i + 2) % (GFX_ROWS * GFX_COLS))),
          Bool.xor (sr.getD 3 false) (s.gfx ((gfx_i + 3) % (GFX_ROWS * GFX_COLS))),
          Bool.xor (sr.getD 4 false) (s.gfx ((gfx_i + 4) % (GFX_ROWS * GFX_COLS))),
          Bool.xor (sr.getD 5 false) (s.gfx ((gfx_i + 5) % (GFX_ROWS * GFX_COLS))),
          Bool.xor (sr.getD 6 false) (s.gfx ((gfx_i + 6) % (GFX_ROWS * GFX_COLS))),
          Bool.xor (sr.getD 7 false) (s.gfx ((gfx_i + 7) % (GFX_ROWS * GFX_COLS))) ]
      let ret2 := ret || (List.range 8).any (fun j => sr.getD j false && !(dr.getD j false))
      let g2 := (List.range 8).foldl (fun g j => writePix g gfx_i j (dr.getD j false)) s.gfx
      drawGo vx n (row + 1) (mem_i + 1) ret2 { s with gfx := g2 }
    else .error .fault

/-- `fn draw_sprite` (opcode DXYN): panics when the origin register
values exceed the grid bounds, then runs the row loop. -/
def draw_sprite (s : CPU) : Except Err CPU :=
  let vx := s.regs (nibble2_usize s)
  let vy := s.regs (nibble3_usize s)
  let height := lower_4_val s
  if vx > GFX_COLS - 1 then .error .fault
  else if vy > GFX_ROWS - 1 then .error .fault
  else drawGo vx height vy s.i false s

/-- `fn skip_if_key` (opcode EX9E): `keys[VX]` is out of bounds when the
register value is not below 16. -/
def skip_if_key (s : CPU) : Except Err CPU :=
  if s.regs (nibble2_usize s) < 16 then
    .ok (if s.keys (s.regs (nibble2_usize s)) then { s with pc := s.pc + 2 } else s)
  else .error .fault

/-- `fn skip_if_not_key` (opcode EXA1). -/
def skip_if_not_key (s : CPU) : Except Err CPU :=
  if s.regs (nibble2_usize s) < 16 then
    .ok (if !(s.keys (s.regs (nibble2_usize s))) then { s with pc := s.pc + 2 } else s)
  else .error .fault

/-- `fn get_delay` (opcode FX07). -/
def get_delay (s : CPU) : CPU := { s with regs := upd s.regs (nibble2_usize s) s.delay_timer }

/-- The scan `for i in 0..self.keys.len()` of `get_key`: the first index
`j` with `k ≤ j < k + left` whose key is pressed. -/
def firstKey (keys : Nat → Bool) : Nat → Nat → Option Nat
  | _, 0 => none
  | k, left + 1 => if keys k then some k else firstKey keys (k + 1) left

/-- `fn get_key` (opcode FX0A): rewind `pc` by 2 (a `u16` underflow when
`pc < 2`); if the ignore-keypress latch is set return at once, otherwise
consume the lowest-indexed pressed key, re-advancing `pc` and raising
the latch. -/
def get_key (s : CPU) : Except Err CPU :=
  if s.pc < 2 then .error .fault
  else
    let s0 := { s with pc := s.pc - 2 }
    if s0.ignore_keypress then .ok s0
    else
      match firstKey s0.keys 0 16 with
      | some k =>
        .ok { s0 with
          pc := s0.pc + 2
          regs := upd s0.regs (nibble2_usize s0) k
          ignore_keypress := true }
      | none => .ok s0

/-- `fn set_delay` (opcode FX15). -/
def set_delay (s : CPU) : CPU := { s with delay_timer := s.regs (nibble2_usize s) }

/-- `fn set_sound` (opcode FX18). -/
def set_sound (s : CPU) : CPU := { s with sound_timer := s.regs (nibble2_usize s) }

/-- `fn add_i` (opcode FX1E): 16-bit wrapping add. -/
def add_i (s : CPU) : CPU := { s with i := (s.i + s.regs (nibble2_usize s)) % 65536 }

/-- `fn get_char` (opcode FX29): `i = FONT_LOC + VX * FONT_NUM_ROWS`,
the multiplication performed on `u8` (wrapping modulo 256). -/
def get_char (s : CPU) : CPU :=
  { s with i := FONT_LOC + (s.regs (nibble2_usize s) * FONT_NUM_ROWS) % 256 }

/-- `fn store_bcd` (opcode FX33): the three digit stores are in bounds
exactly when `i + 2 < MEM_SIZE`. -/
def store_bcd (s : CPU) : Except Err CPU :=
  if s.i + 2 < MEM_SIZE then
    let val := s.regs (nibble2_usize s)
    .ok { s with
      mem := upd (upd (upd s.mem s.i (val / 100)) (s.i + 1) (val % 100 / 10)) (s.i + 2) (val % 10) }
  else .error .fault

/-- `fn reg_dump` (opcode FX55): `for reg_num in 0..=X { mem[i + reg_num] =
regs[reg_num] }`; the last store is in bounds exactly when `i + X < MEM_SIZE`. -/
def reg_dump (s : CPU) : Except Err CPU :=
  if s.i + nibble2_usize s < MEM_SIZE then
    .ok { s with
      mem := (List.range (nibble2_usize s + 1)).foldl (fun m r => upd m (s.i + r) (s.regs r)) s.mem }
  else .error .fault

/-- `fn reg_load` (opcode FX65): `for reg_num in 0..=X { regs[reg_num] =
mem[i + reg_num] }`. -/
def reg_load (s : CPU) : Except Err CPU :=
  if s.i + nibble2_usize s < MEM_SIZE then
    .ok { s with
      regs := (List.range (nibble2_usize s + 1)).foldl (fun rg r => upd rg r (s.mem (s.i + r))) s.regs }
  else .error .fault

/-- `pub fn execute` - the opcode dispatch `match`, arm for arm.  The
two range gaps 5FF1-5FFF and 9FF1-9FFF fall to the final wildcard arm,
exactly as in the Rust `match`. -/
def execute (rng : Nat) (s : CPU) : Except Err CPU :=
  if s.opcode = 0x00E0 then .ok (clear_screen s)
  else if s.opcode = 0x00EE then subroutine_return s
  else if s.opcode ≤ 0x0FFF then .ok (jump s)
  else if 0x1000 ≤ s.opcode ∧ s.opcode ≤ 0x1FFF then .ok (jump s)
  else if 0x2000 ≤ s.opcode ∧ s.opcode ≤ 0x2FFF then subroutine_call s
  else if 0x3000 ≤ s.opcode ∧ s.opcode ≤ 0x3FFF then .ok (skip_if s)
  else if 0x4000 ≤ s.opcode ∧ s.opcode ≤ 0x4FFF then .ok (skip_if_not s)
  else if 0x5000 ≤ s.opcode ∧ s.opcode ≤ 0x5FF0 then .ok (skip_if_xy_eq s)
  else if 0x6000 ≤ s.opcode ∧ s.opcode ≤ 0x6FFF then .ok (set_immediate s)
  else if 0x7000 ≤ s.opcode ∧ s.opcode ≤ 0x7FFF then .ok (add_immediate s)
  else if 0x8000 ≤ s.opcode ∧ s.opcode ≤ 0x8FFF then
    if lower_4_val s = 0x0 then .ok (set s)
    else if lower_4_val s = 0x1 then .ok (or s)
    else if lower_4_val s = 0x2 then .ok (and s)
    else if lower_4_val s = 0x3 then .ok (xor s)
    else if lower_4_val s = 0x4 then .ok (add s)
    else if lower_4_val s = 0x5 then .ok (sub_xy s)
    else if lower_4_val s = 0x6 then .ok (right_shift s)
    else if lower_4_val s = 0x7 then .ok (sub_yx s)
    else if lower_4_val s = 0xE then .ok (left_shift s)
    else .error .invalidOpcode
  else if 0x9000 ≤ s.opcode ∧ s.opcode ≤ 0x9FF0 then .ok (skip_if_xy_neq s)
  else if 0xA000 ≤ s.opcode ∧ s.opcode ≤ 0xAFFF then .ok (set_i_immediate s)
  else if 0xB000 ≤ s.opcode ∧ s.opcode ≤ 0xBFFF then .ok (jump_offset s)
  else if 0xC000 ≤ s.opcode ∧ s.opcode ≤ 0xCFFF then .ok (set_rand rng s)
  else if 0xD000 ≤ s.opcode ∧ s.opcode ≤ 0xDFFF then draw_sprite s
  else if 0xE000 ≤ s.opcode ∧ s.opcode ≤ 0xEFFF then
    if lower_8_val s = 0x9E then skip_if_key s
    else if lower_8_val s = 0xA1 then skip_if_not_key s
    else .error .invalidOpcode
  else if 0xF000 ≤ s.opcode ∧ s.opcode ≤ 0xFFFF then
    if lower_8_val s = 0x07 then .ok (get_delay s)
    else if lower_8_val s = 0x0A then get_key s
    else if lower_8_val s = 0x15 then .ok (set_delay s)
    else if lower_8_val s = 0x18 then .ok (set_sound s)
    else if lower_8_val s = 0x1E then .ok (add_i s)
    else if lower_8_val s = 0x29 then .ok (get_char s)
    else if lower_8_val s = 0x33 then store_bcd s
    else if lower_8_val s = 0x55 then reg_dump s
    else if lower_8_val s = 0x65 then reg_load s
    else .error .invalidOpcode
  else .error .invalidOpcode

/-- `fn fetch`: the big-endian instruction word at `pc`, then `pc += 2`.
The two byte reads are in bounds exactly when `pc + 1 < MEM_SIZE`. -/
def fetch (s : CPU) : Except Err CPU :=
  if s.pc + 1 < MEM_SIZE then
    .ok { s with opcode := (s.mem s.pc) <<< 8 ||| s.mem (s.pc + 1), pc := s.pc + 2 }
  else .error .fault

/-- `pub fn perform_cycle`: fetch then execute. -/
def perform_cycle (rng : Nat) (s : CPU) : Except Err CPU :=
  match fetch s with
  | .ok s1 => execute rng s1
  | .error e => .error e

/-- The 80 font bytes of `load_font`. -/
def FONT : List Nat :=
  [ 0xF0, 0x90, 0x90, 0x90, 0xF0,
    0x20, 0x60, 0x20, 0x20, 0x70,
    0xF0, 0x10, 0xF0, 0x80, 0xF0,
    0xF0, 0x10, 0xF0, 0x10, 0xF0,
    0x90, 0x90, 0xF0, 0x10, 0x10,
    0xF0, 0x80, 0xF0, 0x10, 0xF0,
    0xF0, 0x80, 0xF0, 0x90, 0xF0,
    0xF0, 0x10, 0x20, 0x40, 0x40,
    0xF0, 0x90, 0xF0, 0x90, 0xF0,
    0xF0, 0x90, 0xF0, 0x10, 0xF0,
    0xF0, 0x90, 0xF0, 0x90, 0x90,
    0xE0, 0x90, 0xE0, 0x90, 0xE0,
    0xF0, 0x80, 0x80, 0x80, 0xF0,
    0xE0, 0x90, 0x90, 0x90, 0xE0,
    0xF0, 0x80, 0xF0, 0x80, 0xF0,
    0xF0, 0x80, 0xF0, 0x80, 0x80 ]

/-- `pub fn new`: the zeroed machine with `pc = 0x200` and the font
copied to `FONT_LOC`. -/
def chip8_new : CPU :=
  { opcode := 0
    mem := fun a => if FONT_LOC ≤ a ∧ a < FONT_LOC + FONT_NUM_ROWS * 16
      then FONT.getD (a - FONT_LOC) 0 else 0
    regs := fun _ => 0
    keys := fun _ => false
    gfx := fun _ => false
    stack := fun _ => 0
    sp := 0
    i := 0
    pc := ROM_START
    delay_timer := 0
    sound_timer := 0
    ignore_keypress := false }

/-- `pub fn load_rom`: copy the program bytes to `ROM_START` upward. -/
def load_rom (s : CPU) (rom : List Nat) : CPU :=
  { s with mem := fun a =>
      if ROM_START ≤ a ∧ a < ROM_START + rom.length then rom.getD (a - ROM_START) 0 else s.mem a }

/-- Whether an execution result is a normal (non-panicking) state. -/
def isOkC : Except Err CPU → Bool
  | .ok _ => true
  | .error _ => false

/-- The post state of a successful execution result (defaulting to the
fresh machine on error, for use in closed observations only). -/
def okState : Except Err CPU → CPU
  | .ok t => t
  | .error _ => chip8_new

/-- Observation: program counter of a successful result. -/
def pcAfter (e : Except Err CPU) : Nat := (okState e).pc

/-- Observation: a register of a successful result. -/
def regsAfter (e : Except Err CPU) (j : Nat) : Nat := (okState e).regs j

/-- Observation: a pixel of a successful result. -/
def gfxAfter (e : Except Err CPU) (j : Nat) : Bool := (okState e).gfx j

/-- Evenness invariant of the machine: the program counter and every
stack slot hold even addresses. -/
def EvenInv (s : CPU) : Prop := s.pc % 2 = 0 ∧ ∀ k < 16, s.stack k % 2 = 0

/-- Concrete machine about to draw an 8x1 sprite of all-set pixels at
origin (60, 0): opcode D011 with V0 = 60, V1 = 0 and an 0xFF sprite
byte at the index register. -/
def c1state : CPU :=
  { chip8_new with
    opcode := 0xD011
    regs := upd (upd chip8_new.regs 0 60) 1 0
    i := 0x300
    mem := upd chip8_new.mem 0x300 0xFF }

/-- Concrete machine about to execute `add` (8XY4) with destination VF:
opcode 8F04 with VF = 3 and V0 = 4. -/
def c2state : CPU :=
  { chip8_new with opcode := 0x8F04, regs := upd (upd chip8_new.regs 15 3) 0 4 }

/-- Concrete machine about to execute `sub_xy` (8015) with V0 = 5, V1 = 3. -/
def c4state : CPU :=
  { chip8_new with opcode := 0x8015, regs := upd (upd chip8_new.regs 0 5) 1 3 }

/-- Concrete machine about to execute `sub_xy` (8015) with V0 = 3, V1 = 5. -/
def c4state' : CPU :=
  { chip8_new with opcode := 0x8015, regs := upd (upd chip8_new.regs 0 3) 1 5 }

/-- A fresh machine loaded with the two-byte program `1201`: jump to the
odd address 0x201. -/
def c6state : CPU := load_rom chip8_new [0x12, 0x01]

/-- A fresh machine loaded with the clear-screen instruction `00E0`. -/
def c6even : CPU := load_rom chip8_new [0x00, 0xE0]

/-- A fresh machine loaded with the key-wait instruction `F30A`, with
keys 4 and 7 pressed. -/
def c3state : CPU :=
  { load_rom chip8_new [0xF3, 0x0A] with keys := upd (upd chip8_new.keys 7 true) 4 true }

/-- Concrete machine about to execute the BCD store `F233` with
V2 = 157 and index register 0x400. -/
def c8state : CPU :=
  { chip8_new with opcode := 0xF233, regs := upd chip8_new.regs 2 157, i := 0x400 }

/-- Concrete machine about to dump registers (`F555`) with distinct
register values and index register 0x400. -/
def c9state : CPU :=
  { chip8_new with opcode := 0xF555, regs := fun j => (j * 11 + 3) % 256, i := 0x400 }

end Chip8

namespace Chip8

/-! ### Helper lemmas -/

theorem upd_self {α : Type} (f : Nat → α) (k : Nat) (v : α) : upd f k v k = v := by
  simp [upd]

theorem upd_of_eq {α : Type} (f : Nat → α) {j k : Nat} (v : α) (h : j = k) : upd f k v j = v := by
  simp [upd, h]

theorem upd_of_ne {α : Type} (f : Nat → α) {j k : Nat} (v : α) (h : j ≠ k) : upd f k v j = f j := by
  simp [upd, h]

/-- The else-branch of a guard whose condition fails. -/
theorem if_not {c : Prop} [inst : Decidable c] (hnc : ¬c) {α : Sort 1} {x y : α} :
    (if c then x else y) = y := if_neg hnc

/-- The then-branch of a guard whose condition holds. -/
theorem if_yes {c : Prop} [inst : Decidable c] (hc : c) {α : Sort 1} {x y : α} :
    (if c then x else y) = x := if_pos hc

/-- Reading outside all written cells of an ascending update fold. -/
theorem updFold_out (tgt v : Nat → Nat) :
    ∀ (n : Nat) (g0 : Nat → Nat) (j : Nat), (∀ r < n, j ≠ tgt r) →
      ((List.range n).foldl (fun g r => upd g (tgt r) (v r)) g0) j = g0 j := by
  intro n
  induction n with
  | zero => intro g0 j _; simp
  | succ n ih =>
    intro g0 j hj
    rw [List.range_succ, List.foldl_append]
    simp only [List.foldl_cons, List.foldl_nil]
    rw [upd_of_ne _ _ (hj n (Nat.lt_succ_self n))]
    exact ih g0 j (fun r hr => hj r (Nat.lt_succ_of_lt hr))

/-- Reading a written cell of an ascending update fold whose targets do
not collide with the cell later on. -/
theorem updFold_in (tgt v : Nat → Nat) :
    ∀ (n : Nat) (g0 : Nat → Nat) (r0 : Nat), r0 < n →
      (∀ r, r0 < r → r < n → tgt r ≠ tgt r0) →
      ((List.range n).foldl (fun g r => upd g (tgt r) (v r)) g0) (tgt r0) = v r0 := by
  intro n
  induction n with
  | zero => intro g0 r0 h; omega
  | succ n ih =>
    intro g0 r0 hr0 hinj
    rw [List.range_succ, List.foldl_append]
    simp only [List.foldl_cons, List.foldl_nil]
    rcases Nat.lt_or_ge r0 n with h | h
    · rw [upd_of_ne _ _ (Ne.symm (hinj n h (Nat.lt_succ_self n)))]
      exact ih g0 r0 h (fun r h1 h2 => hinj r h1 (Nat.lt_succ_of_lt h2))
    · have : r0 = n := by omega
      subst this
      exact upd_self _ _ _

end Chip8

namespace Chip8

/-- Dispatch: an 8XY5 word reaches `sub_xy`. -/
theorem execute_eq_sub_xy (rng : Nat) (s : CPU)
    (h1 : 0x8000 ≤ s.opcode) (h2 : s.opcode ≤ 0x8FFF) (h5 : lower_4_val s = 0x5) :
    execute rng s = .ok (sub_xy s) := by
  unfold execute
  rw [if_not (by omega), if_not (by omega), if_not (by omega), if_not (by omega),
    if_not (by omega), if_not (by omega), if_not (by omega), if_not (by omega),
    if_not (by omega), if_not (by omega), if_yes (by omega),
    if_not (by omega), if_not (by omega), if_not (by omega), if_not (by omega),
    if_not (by omega), if_pos h5]

/-- C10: subroutine return succeeds exactly when the stack pointer is at
least 1 before execution, and subroutine call succeeds exactly when it
is at most 15; at sp = 0 a return faults and at sp = 16 a call faults. -/
theorem c10_stack_bounds (s : CPU) (hsp : s.sp ≤ 16) :
    (isOkC (subroutine_return s) = true ↔ 1 ≤ s.sp) ∧
    (isOkC (subroutine_call s) = true ↔ s.sp ≤ 15) := by
  constructor
  · unfold subroutine_return
    split_ifs with h1 h2 <;> simp [isOkC] <;> omega
  · unfold subroutine_call
    split_ifs with h1 <;> simp [isOkC] <;> omega

theorem c10_stack_bounds_witness :
    chip8_new.sp ≤ 16 ∧
    ((isOkC (subroutine_return chip8_new) = true ↔ 1 ≤ chip8_new.sp) ∧
     (isOkC (subroutine_call chip8_new) = true ↔ chip8_new.sp ≤ 15)) :=
  ⟨by decide, c10_stack_bounds chip8_new (by decide)⟩

/-- C5: from any post-fetch program counter P with room for one push,
a subroutine call followed by a subroutine return restores the program
counter to exactly P and the stack pointer to its original value. -/
theorem c5_call_return_roundtrip (s : CPU) (hsp : s.sp < 16) :
    ∃ t u, subroutine_call s = .ok t ∧ subroutine_return t = .ok u ∧
      u.pc = s.pc ∧ u.sp = s.sp := by
  refine ⟨{ s with stack := upd s.stack s.sp s.pc, pc := s.opcode &&& 0xFFF, sp := s.sp + 1 },
    { s with stack := upd s.stack s.sp s.pc, pc := s.pc, sp := s.sp }, ?_, ?_, rfl, rfl⟩
  · unfold subroutine_call
    rw [if_pos hsp]
  · unfold subroutine_return
    rw [if_neg (show ¬(s.sp + 1 = 0) by omega), if_pos (show s.sp + 1 - 1 < 16 by omega)]
    simp [upd]

theorem c5_call_return_roundtrip_witness :
    chip8_new.sp < 16 ∧
    ∃ t u, subroutine_call chip8_new = .ok t ∧ subroutine_return t = .ok u ∧
      u.pc = chip8_new.pc ∧ u.sp = chip8_new.sp :=
  ⟨by decide, c5_call_return_roundtrip chip8_new (by decide)⟩

end Chip8

namespace Chip8

/-- C4: for any 8XY5 instruction whose destination is not VF itself,
the destination receives the 8-bit wrapping difference VX - VY and VF
becomes 1 exactly when VX is at least VY (no borrow), else 0. -/
theorem c4_sub_borrow (rng : Nat) (s : CPU)
    (h1 : 0x8000 ≤ s.opcode) (h2 : s.opcode ≤ 0x8FFF) (h5 : lower_4_val s = 0x5)
    (hx15 : nibble2_usize s ≠ 15)
    (ha : s.regs (nibble2_usize s) < 256) (hb : s.regs (nibble3_usize s) < 256) :
    ∃ t, execute rng s = .ok t ∧
      (t.regs (nibble2_usize s) : Int) =
        ((s.regs (nibble2_usize s) : Int) - (s.regs (nibble3_usize s) : Int)) % 256 ∧
      t.regs 15 = (if s.regs (nibble3_usize s) ≤ s.regs (nibble2_usize s) then 1 else 0) := by
  refine ⟨sub_xy s, execute_eq_sub_xy rng s h1 h2 h5, ?_, ?_⟩
  · show ((upd (upd s.regs 15 _) (nibble2_usize s) _ (nibble2_usize s) : Nat) : Int) = _
    rw [upd_self]
    omega
  · show upd (upd s.regs 15 _) (nibble2_usize s) _ 15 = _
    rw [upd_of_ne _ _ (Ne.symm hx15), upd_self]

theorem c4_sub_borrow_witness :
    (∃ t, execute 0 c4state = .ok t ∧
      (t.regs (nibble2_usize c4state) : Int) =
        ((c4state.regs (nibble2_usize c4state) : Int) - (c4state.regs (nibble3_usize c4state) : Int)) % 256 ∧
      t.regs 15 = (if c4state.regs (nibble3_usize c4state) ≤ c4state.regs (nibble2_usize c4state) then 1 else 0)) ∧
    (∃ t, execute 0 c4state' = .ok t ∧
      (t.regs (nibble2_usize c4state') : Int) =
        ((c4state'.regs (nibble2_usize c4state') : Int) - (c4state'.regs (nibble3_usize c4state') : Int)) % 256 ∧
      t.regs 15 = (if c4state'.regs (nibble3_usize c4state') ≤ c4state'.regs (nibble2_usize c4state') then 1 else 0)) ∧
    regsAfter (execute 0 c4state) 0 = 0x02 ∧ regsAfter (execute 0 c4state) 15 = 1 ∧
    regsAfter (execute 0 c4state') 0 = 0xFE ∧ regsAfter (execute 0 c4state') 15 = 0 :=
  ⟨c4_sub_borrow 0 c4state (by decide) (by decide) (by decide) (by decide) (by decide) (by decide),
   c4_sub_borrow 0 c4state' (by decide) (by decide) (by decide) (by decide) (by decide) (by decide),
   by decide, by decide, by decide, by decide⟩

end Chip8

namespace Chip8

/-- C7: a word of the 8-family whose low nibble is none of 0-7 or E, a
word of the E-family whose low byte is neither 9E nor A1, and a word of
the F-family whose low byte is none of the nine known codes, each fail
with InvalidOpcode and reach no handler. -/
theorem c7_invalid_opcode (rng : Nat) (s : CPU)
    (h : (0x8000 ≤ s.opcode ∧ s.opcode ≤ 0x8FFF ∧
            lower_4_val s ≠ 0x0 ∧ lower_4_val s ≠ 0x1 ∧ lower_4_val s ≠ 0x2 ∧
            lower_4_val s ≠ 0x3 ∧ lower_4_val s ≠ 0x4 ∧ lower_4_val s ≠ 0x5 ∧
            lower_4_val s ≠ 0x6 ∧ lower_4_val s ≠ 0x7 ∧ lower_4_val s ≠ 0xE) ∨
        (0xE000 ≤ s.opcode ∧ s.opcode ≤ 0xEFFF ∧
            lower_8_val s ≠ 0x9E ∧ lower_8_val s ≠ 0xA1) ∨
        (0xF000 ≤ s.opcode ∧ s.opcode ≤ 0xFFFF ∧
            lower_8_val s ≠ 0x07 ∧ lower_8_val s ≠ 0x0A ∧ lower_8_val s ≠ 0x15 ∧
            lower_8_val s ≠ 0x18 ∧ lower_8_val s ≠ 0x1E ∧ lower_8_val s ≠ 0x29 ∧
            lower_8_val s ≠ 0x33 ∧ lower_8_val s ≠ 0x55 ∧ lower_8_val s ≠ 0x65)) :
    execute rng s = .error .invalidOpcode := by
  rcases h with ⟨h1, h2, h3, h4, h5, h6, h7, h8, h9, h10, h11⟩ |
    ⟨h1, h2, h3, h4⟩ | ⟨h1, h2, h3, h4, h5, h6, h7, h8, h9, h10, h11⟩
  · unfold execute
    rw [if_not (by omega), if_not (by omega), if_not (by omega), if_not (by omega),
      if_not (by omega), if_not (by omega), if_not (by omega), if_not (by omega),
      if_not (by omega), if_not (by omega), if_yes (by omega),
      if_not (by omega), if_not (by omega), if_not (by omega), if_not (by omega),
      if_not (by omega), if_not (by omega), if_not (by omega), if_not (by omega),
      if_not (by omega)]
  · unfold execute
    rw [if_not (by omega), if_not (by omega), if_not (by omega), if_not (by omega),
      if_not (by omega), if_not (by omega), if_not (by omega), if_not (by omega),
      if_not (by omega), if_not (by omega), if_not (by omega), if_not (by omega),
      if_not (by omega), if_not (by omega), if_not (by omega), if_not (by omega),
      if_yes (by omega), if_not (by omega), if_not (by omega)]
  · unfold execute
    rw [if_not (by omega), if_not (by omega), if_not (by omega), if_not (by omega),
      if_not (by omega), if_not (by omega), if_not (by omega), if_not (by omega),
      if_not (by omega), if_not (by omega), if_not (by omega), if_not (by omega),
      if_not (by omega), if_not (by omega), if_not (by omega), if_not (by omega),
      if_not (by omega), if_yes (by omega),
      if_not (by omega), if_not (by omega), if_not (by omega), if_not (by omega),
      if_not (by omega), if_not (by omega), if_not (by omega), if_not (by omega),
      if_not (by omega)]

theorem c7_invalid_opcode_witness :
    execute 0 { chip8_new with opcode := 0x8888 } = .error .invalidOpcode ∧
    execute 0 { chip8_new with opcode := 0xE355 } = .error .invalidOpcode ∧
    execute 0 { chip8_new with opcode := 0xF340 } = .error .invalidOpcode :=
  ⟨c7_invalid_opcode 0 _ (Or.inl (by decide)),
   c7_invalid_opcode 0 _ (Or.inr (Or.inl (by decide))),
   c7_invalid_opcode 0 _ (Or.inr (Or.inr (by decide)))⟩

/-- Dispatch: an FX33 word reaches `store_bcd`. -/
theorem execute_eq_store_bcd (rng : Nat) (s : CPU)
    (h1 : 0xF000 ≤ s.opcode) (h2 : s.opcode ≤ 0xFFFF) (h3 : lower_8_val s = 0x33) :
    execute rng s = store_bcd s := by
  unfold execute
  rw [if_not (by omega), if_not (by omega), if_not (by omega), if_not (by omega),
    if_not (by omega), if_not (by omega), if_not (by omega), if_not (by omega),
    if_not (by omega), if_not (by omega), if_not (by omega), if_not (by omega),
    if_not (by omega), if_not (by omega), if_not (by omega), if_not (by omega),
    if_not (by omega), if_yes (by omega),
    if_not (by omega), if_not (by omega), if_not (by omega), if_not (by omega),
    if_not (by omega), if_not (by omega), if_pos h3]

/-- C8: the BCD store of an FX33 word writes the hundreds, tens and
ones digits of VX to memory at I, I+1, I+2 and leaves every other
memory cell unchanged. -/
theorem c8_bcd_store (rng : Nat) (s : CPU)
    (h1 : 0xF000 ≤ s.opcode) (h2 : s.opcode ≤ 0xFFFF) (h3 : lower_8_val s = 0x33)
    (hv : s.regs (nibble2_usize s) < 256) (hi : s.i + 2 < MEM_SIZE) :
    ∃ t, execute rng s = .ok t ∧
      t.mem s.i = s.regs (nibble2_usize s) / 100 ∧
      t.mem (s.i + 1) = s.regs (nibble2_usize s) / 10 % 10 ∧
      t.mem (s.i + 2) = s.regs (nibble2_usize s) % 10 ∧
      (∀ a, a ≠ s.i → a ≠ s.i + 1 → a ≠ s.i + 2 → t.mem a = s.mem a) := by
  rw [execute_eq_store_bcd rng s h1 h2 h3]
  unfold store_bcd
  rw [if_pos hi]
  refine ⟨_, rfl, ?_, ?_, ?_, ?_⟩
  · show upd _ (s.i + 2) _ s.i = _
    rw [upd_of_ne _ _ (by omega), upd_of_ne _ _ (by omega), upd_self]
  · show upd _ (s.i + 2) _ (s.i + 1) = _
    rw [upd_of_ne _ _ (by omega), upd_self]
    omega
  · exact upd_self _ _ _
  · intro a ha0 ha1 ha2
    show upd _ (s.i + 2) _ a = _
    rw [upd_of_ne _ _ ha2, upd_of_ne _ _ ha1, upd_of_ne _ _ ha0]

theorem c8_bcd_store_witness :
    (∃ t, execute 0 c8state = .ok t ∧
      t.mem c8state.i = c8state.regs (nibble2_usize c8state) / 100 ∧
      t.mem (c8state.i + 1) = c8state.regs (nibble2_usize c8state) / 10 % 10 ∧
      t.mem (c8state.i + 2) = c8state.regs (nibble2_usize c8state) % 10 ∧
      (∀ a, a ≠ c8state.i → a ≠ c8state.i + 1 → a ≠ c8state.i + 2 →
        t.mem a = c8state.mem a)) ∧
    (okState (execute 0 c8state)).mem 0x400 = 1 ∧
    (okState (execute 0 c8state)).mem 0x401 = 5 ∧
    (okState (execute 0 c8state)).mem 0x402 = 7 :=
  ⟨c8_bcd_store 0 c8state (by decide) (by decide) (by decide) (by decide) (by decide),
   by decide, by decide, by decide⟩

end Chip8

namespace Chip8

/-- C9: dumping registers V0..VX to memory at the index register and
loading them back restores all sixteen registers, and neither operation
moves the index register. -/
theorem c9_dump_load_roundtrip (s : CPU) (h : s.i + nibble2_usize s < MEM_SIZE) :
    ∃ t u, reg_dump s = .ok t ∧ reg_load t = .ok u ∧
      (∀ j < 16, u.regs j = s.regs j) ∧ t.i = s.i ∧ u.i = s.i := by
  have hdump : reg_dump s = .ok { s with
      mem := (List.range (nibble2_usize s + 1)).foldl (fun m r => upd m (s.i + r) (s.regs r)) s.mem } := by
    unfold reg_dump
    rw [if_pos h]
  set M : Nat → Nat :=
    (List.range (nibble2_usize s + 1)).foldl (fun m r => upd m (s.i + r) (s.regs r)) s.mem with hM
  have hload : reg_load { s with mem := M } = .ok { s with
      mem := M
      regs := (List.range (nibble2_usize s + 1)).foldl (fun rg r => upd rg r (M (s.i + r))) s.regs } := by
    unfold reg_load
    exact if_pos h
  refine ⟨_, _, hdump, hload, ?_, rfl, rfl⟩
  intro j hj
  show (List.range (nibble2_usize s + 1)).foldl (fun rg r => upd rg r (M (s.i + r))) s.regs j
    = s.regs j
  rcases Nat.lt_or_ge j (nibble2_usize s + 1) with hle | hgt
  · have h1 := updFold_in (fun r => r) (fun r => M (s.i + r)) (nibble2_usize s + 1) s.regs j hle
      (fun r hr1 hr2 => by show r ≠ j; omega)
    simp only [] at h1
    rw [h1, hM]
    have h2 := updFold_in (fun r => s.i + r) s.regs (nibble2_usize s + 1) s.mem j hle
      (fun r hr1 hr2 => by show s.i + r ≠ s.i + j; omega)
    simpa using h2
  · exact updFold_out (fun r => r) (fun r => M (s.i + r)) (nibble2_usize s + 1) s.regs j
      (fun r hr => by show j ≠ r; omega)

theorem c9_dump_load_roundtrip_witness :
    (c9state.i + nibble2_usize c9state < MEM_SIZE) ∧
    (∃ t u, reg_dump c9state = .ok t ∧ reg_load t = .ok u ∧
      (∀ j < 16, u.regs j = c9state.regs j) ∧ t.i = c9state.i ∧ u.i = c9state.i) :=
  ⟨by decide, c9_dump_load_roundtrip c9state (by decide)⟩

end Chip8

namespace Chip8

/-- Dispatch: an FX0A word reaches `get_key`. -/
theorem execute_eq_get_key (rng : Nat) (s : CPU)
    (h1 : 0xF000 ≤ s.opcode) (h2 : s.opcode ≤ 0xFFFF) (h3 : lower_8_val s = 0x0A) :
    execute rng s = get_key s := by
  unfold execute
  rw [if_not (by omega), if_not (by omega), if_not (by omega), if_not (by omega),
    if_not (by omega), if_not (by omega), if_not (by omega), if_not (by omega),
    if_not (by omega), if_not (by omega), if_not (by omega), if_not (by omega),
    if_not (by omega), if_not (by omega), if_not (by omega), if_not (by omega),
    if_not (by omega), if_yes (by omega),
    if_not (by omega), if_pos h3]

/-- The key scan returns none when no key in its window is pressed. -/
theorem firstKey_none (keys : Nat → Bool) :
    ∀ (left k : Nat), (∀ m, k ≤ m → m < k + left → keys m = false) →
      firstKey keys k left = none := by
  intro left
  induction left with
  | zero => intro k _; rfl
  | succ n ih =>
    intro k h
    have hk : keys k = false := h k le_rfl (by omega)
    simp only [firstKey, hk, Bool.false_eq_true, if_false]
    exact ih (k + 1) (fun m h1 h2 => h m (by omega) (by omega))

/-- The key scan returns the lowest pressed index in its window. -/
theorem firstKey_some (keys : Nat → Bool) :
    ∀ (left k k0 : Nat), k ≤ k0 → k0 < k + left → keys k0 = true →
      (∀ m, k ≤ m → m < k0 → keys m = false) →
      firstKey keys k left = some k0 := by
  intro left
  induction left with
  | zero => intro k k0 h1 h2 _ _; omega
  | succ n ih =>
    intro k k0 h1 h2 h3 h4
    by_cases hk : keys k = true
    · have hkk : k0 = k := by
        by_contra hne
        have hlt : k < k0 := by omega
        have := h4 k le_rfl hlt
        rw [hk] at this
        cases this
      subst hkk
      simp [firstKey, hk]
    · have hkf : keys k = false := by
        revert hk
        cases keys k <;> simp
      have hne : k ≠ k0 := by
        intro he
        rw [he, h3] at hkf
        cases hkf
      simp only [firstKey, hkf, Bool.false_eq_true, if_false]
      exact ih (k + 1) k0 (by omega) (by omega) h3 (fun m hm1 hm2 => h4 m (by omega) hm2)

/-- C3: a full fetch+execute cycle on the key-wait instruction FX0A
leaves the whole observable state (program counter included) unchanged
when the ignore-keypress latch is set or no key is pressed, and
otherwise advances the program counter past the instruction, stores the
lowest-indexed pressed key into register X and raises the latch. -/
theorem c3_key_wait (rng : Nat) (s s1 t : CPU)
    (hfetch : fetch s = .ok s1)
    (h1 : 0xF000 ≤ s1.opcode) (h2 : s1.opcode ≤ 0xFFFF) (h3 : lower_8_val s1 = 0x0A)
    (hcycle : perform_cycle rng s = .ok t) :
    ((s.ignore_keypress = true ∨ (∀ k < 16, s.keys k = false)) →
      t.pc = s.pc ∧ t.regs = s.regs ∧ t.ignore_keypress = s.ignore_keypress ∧
      t.keys = s.keys ∧ t.mem = s.mem ∧ t.sp = s.sp ∧ t.stack = s.stack ∧ t.i = s.i) ∧
    (s.ignore_keypress = false →
      ∀ k0, k0 < 16 → s.keys k0 = true → (∀ m, m < k0 → s.keys m = false) →
      t.pc = s.pc + 2 ∧ t.regs (nibble2_usize s1) = k0 ∧ t.ignore_keypress = true ∧
      (∀ j, j ≠ nibble2_usize s1 → t.regs j = s.regs j)) := by
  unfold fetch at hfetch
  by_cases hpc : s.pc + 1 < MEM_SIZE
  case neg =>
    rw [if_neg hpc] at hfetch
    cases hfetch
  rw [if_pos hpc] at hfetch
  injection hfetch with hfetch
  have hexec : execute rng s1 = .ok t := by
    rw [← hcycle]
    unfold perform_cycle fetch
    rw [if_pos hpc, hfetch]
  subst hfetch
  rw [execute_eq_get_key rng _ h1 h2 h3] at hexec
  simp only [get_key] at hexec
  rw [if_neg (show ¬(s.pc + 2 < 2) by omega)] at hexec
  constructor
  · intro hwait
    have hall : (s.ignore_keypress = true) ∨
        (s.ignore_keypress = false ∧ firstKey s.keys 0 16 = none) := by
      rcases hwait with hl | hnk
      · exact Or.inl hl
      · rcases Bool.eq_false_or_eq_true s.ignore_keypress with hl | hl
        · exact Or.inl hl
        · exact Or.inr ⟨hl, firstKey_none s.keys 16 0 (fun m _ hm => hnk m (by omega))⟩
    rcases hall with hl | ⟨hl, hfk⟩
    · rw [if_pos hl] at hexec
      injection hexec with hexec
      subst hexec
      refine ⟨by show s.pc + 2 - 2 = s.pc; omega, rfl, rfl, rfl, rfl, rfl, rfl, rfl⟩
    · rw [if_neg (by rw [hl]; simp)] at hexec
      rw [show firstKey s.keys 0 16 = none from hfk] at hexec
      injection hexec with hexec
      subst hexec
      refine ⟨by show s.pc + 2 - 2 = s.pc; omega, rfl, rfl, rfl, rfl, rfl, rfl, rfl⟩
  · intro hl k0 hk0 hpress hmin
    rw [if_neg (by rw [hl]; simp)] at hexec
    have hfk : firstKey s.keys 0 16 = some k0 :=
      firstKey_some s.keys 16 0 k0 (by omega) (by omega) hpress (fun m _ hm => hmin m hm)
    rw [show firstKey s.keys 0 16 = some k0 from hfk] at hexec
    injection hexec with hexec
    subst hexec
    refine ⟨by show s.pc + 2 - 2 + 2 = s.pc + 2; omega, ?_, rfl, ?_⟩
    · exact upd_self _ _ _
    · intro j hj
      exact upd_of_ne _ _ hj

theorem c3_key_wait_witness :
    (okState (perform_cycle 0 c3state)).pc = c3state.pc + 2 ∧
    (okState (perform_cycle 0 c3state)).regs (nibble2_usize (okState (fetch c3state))) = 4 ∧
    (okState (perform_cycle 0 c3state)).ignore_keypress = true := by
  have h := c3_key_wait 0 c3state (okState (fetch c3state)) (okState (perform_cycle 0 c3state))
    rfl (by decide) (by decide) (by decide) rfl
  have h2 := h.2 (by decide) 4 (by decide) (by decide) (by decide)
  exact ⟨h2.1, h2.2.1, h2.2.2.1⟩

end Chip8

namespace Chip8

/-- Dispatch: an 8XY4 word reaches `add`. -/
theorem execute_eq_add (rng : Nat) (s : CPU)
    (h1 : 0x8000 ≤ s.opcode) (h2 : s.opcode ≤ 0x8FFF) (h5 : lower_4_val s = 0x4) :
    execute rng s = .ok (add s) := by
  unfold execute
  rw [if_not (by omega), if_not (by omega), if_not (by omega), if_not (by omega),
    if_not (by omega), if_not (by omega), if_not (by omega), if_not (by omega),
    if_not (by omega), if_not (by omega), if_yes (by omega),
    if_not (by omega), if_not (by omega), if_not (by omega), if_not (by omega),
    if_pos h5]

/-- Dispatch: an 8XY6 word reaches `right_shift`. -/
theorem execute_eq_right_shift (rng : Nat) (s : CPU)
    (h1 : 0x8000 ≤ s.opcode) (h2 : s.opcode ≤ 0x8FFF) (h5 : lower_4_val s = 0x6) :
    execute rng s = .ok (right_shift s) := by
  unfold execute
  rw [if_not (by omega), if_not (by omega), if_not (by omega), if_not (by omega),
    if_not (by omega), if_not (by omega), if_not (by omega), if_not (by omega),
    if_not (by omega), if_not (by omega), if_yes (by omega),
    if_not (by omega), if_not (by omega), if_not (by omega), if_not (by omega),
    if_not (by omega), if_not (by omega), if_pos h5]

/-- Dispatch: an 8XY7 word reaches `sub_yx`. -/
theorem execute_eq_sub_yx (rng : Nat) (s : CPU)
    (h1 : 0x8000 ≤ s.opcode) (h2 : s.opcode ≤ 0x8FFF) (h5 : lower_4_val s = 0x7) :
    execute rng s = .ok (sub_yx s) := by
  unfold execute
  rw [if_not (by omega), if_not (by omega), if_not (by omega), if_not (by omega),
    if_not (by omega), if_not (by omega), if_not (by omega), if_not (by omega),
    if_not (by omega), if_not (by omega), if_yes (by omega),
    if_not (by omega), if_not (by omega), if_not (by omega), if_not (by omega),
    if_not (by omega), if_not (by omega), if_not (by omega), if_pos h5]

/-- Dispatch: an 8XYE word reaches `left_shift`. -/
theorem execute_eq_left_shift (rng : Nat) (s : CPU)
    (h1 : 0x8000 ≤ s.opcode) (h2 : s.opcode ≤ 0x8FFF) (h5 : lower_4_val s = 0xE) :
    execute rng s = .ok (left_shift s) := by
  unfold execute
  rw [if_not (by omega), if_not (by omega), if_not (by omega), if_not (by omega),
    if_not (by omega), if_not (by omega), if_not (by omega), if_not (by omega),
    if_not (by omega), if_not (by omega), if_yes (by omega),
    if_not (by omega), if_not (by omega), if_not (by omega), if_not (by omega),
    if_not (by omega), if_not (by omega), if_not (by omega), if_not (by omega),
    if_pos h5]

/-- Dispatch: a DXYN word reaches `draw_sprite`. -/
theorem execute_eq_draw_sprite (rng : Nat) (s : CPU)
    (h1 : 0xD000 ≤ s.opcode) (h2 : s.opcode ≤ 0xDFFF) :
    execute rng s = draw_sprite s := by
  unfold execute
  rw [if_not (by omega), if_not (by omega), if_not (by omega), if_not (by omega),
    if_not (by omega), if_not (by omega), if_not (by omega), if_not (by omega),
    if_not (by omega), if_not (by omega), if_not (by omega), if_not (by omega),
    if_not (by omega), if_not (by omega), if_not (by omega), if_yes (by omega)]

/-- The row loop of the draw only changes the pixel buffer and, at the
end, the flag register VF, which it leaves at 0 or 1. -/
theorem drawGo_frame (vx : Nat) :
    ∀ (n row mem_i : Nat) (ret : Bool) (s t : CPU),
      drawGo vx n row mem_i ret s = .ok t →
      t.pc = s.pc ∧ t.stack = s.stack ∧ t.sp = s.sp ∧ t.opcode = s.opcode ∧
      t.mem = s.mem ∧ t.i = s.i ∧ t.keys = s.keys ∧ t.ignore_keypress = s.ignore_keypress ∧
      (t.regs 15 = 0 ∨ t.regs 15 = 1) ∧ (∀ j, j ≠ 15 → t.regs j = s.regs j) := by
  intro n
  induction n with
  | zero =>
    intro row mem_i ret s t h
    simp only [drawGo] at h
    injection h with h
    subst h
    refine ⟨rfl, rfl, rfl, rfl, rfl, rfl, rfl, rfl, ?_, ?_⟩
    · cases ret <;> simp [upd]
    · intro j hj
      exact upd_of_ne _ _ hj
  | succ n ih =>
    intro row mem_i ret s t h
    simp only [drawGo] at h
    by_cases hm : mem_i < MEM_SIZE
    · rw [if_pos hm] at h
      have hres := ih (row + 1) (mem_i + 1) _ _ t h
      exact hres
    · rw [if_neg hm] at h
      cases h

/-- A successful draw leaves VF at 0 or 1 and moves no other register. -/
theorem draw_sprite_flag (s t : CPU) (h : draw_sprite s = .ok t) :
    (t.regs 15 = 0 ∨ t.regs 15 = 1) ∧ (∀ j, j ≠ 15 → t.regs j = s.regs j) := by
  unfold draw_sprite at h
  by_cases hx : s.regs (nibble2_usize s) > GFX_COLS - 1
  · rw [if_pos hx] at h
    cases h
  rw [if_neg hx] at h
  by_cases hy : s.regs (nibble3_usize s) > GFX_ROWS - 1
  · rw [if_pos hy] at h
    cases h
  rw [if_neg hy] at h
  have := drawGo_frame _ _ _ _ _ _ _ h
  exact ⟨this.2.2.2.2.2.2.2.2.1, this.2.2.2.2.2.2.2.2.2⟩

/-- C2 (amended): immediately after an arithmetic (8XY4/5/7), shift
(8XY6/8XYE) or draw (DXYN) operation, VF holds 0 or 1, provided that
for add, the two subtractions and the left shift the destination X is
not VF itself; with X = VF those four store their 8-bit result into VF
and the stored value can differ from 0 and 1. -/
theorem c2_flag_amended (rng : Nat) (s t : CPU)
    (hwf : ∀ k, s.regs k < 256)
    (h : (0x8000 ≤ s.opcode ∧ s.opcode ≤ 0x8FFF ∧
           (lower_4_val s = 0x4 ∨ lower_4_val s = 0x5 ∨ lower_4_val s = 0x7 ∨ lower_4_val s = 0xE) ∧
           nibble2_usize s ≠ 15) ∨
        (0x8000 ≤ s.opcode ∧ s.opcode ≤ 0x8FFF ∧ lower_4_val s = 0x6) ∨
        (0xD000 ≤ s.opcode ∧ s.opcode ≤ 0xDFFF))
    (hexec : execute rng s = .ok t) :
    t.regs 15 = 0 ∨ t.regs 15 = 1 := by
  rcases h with ⟨h1, h2, h5, hx15⟩ | ⟨h1, h2, h5⟩ | ⟨h1, h2⟩
  · rcases h5 with h5 | h5 | h5 | h5
    · rw [execute_eq_add rng s h1 h2 h5] at hexec
      injection hexec with hexec
      subst hexec
      show upd (upd s.regs 15 _) (nibble2_usize s) _ 15 = 0 ∨
        upd (upd s.regs 15 _) (nibble2_usize s) _ 15 = 1
      rw [upd_of_ne _ _ (Ne.symm hx15), upd_self]
      split_ifs <;> simp
    · rw [execute_eq_sub_xy rng s h1 h2 h5] at hexec
      injection hexec with hexec
      subst hexec
      show upd (upd s.regs 15 _) (nibble2_usize s) _ 15 = 0 ∨
        upd (upd s.regs 15 _) (nibble2_usize s) _ 15 = 1
      rw [upd_of_ne _ _ (Ne.symm hx15), upd_self]
      split_ifs <;> simp
    · rw [execute_eq_sub_yx rng s h1 h2 h5] at hexec
      injection hexec with hexec
      subst hexec
      show upd (upd s.regs 15 _) (nibble2_usize s) _ 15 = 0 ∨
        upd (upd s.regs 15 _) (nibble2_usize s) _ 15 = 1
      rw [upd_of_ne _ _ (Ne.symm hx15), upd_self]
      split_ifs <;> simp
    · rw [execute_eq_left_shift rng s h1 h2 h5] at hexec
      injection hexec with hexec
      subst hexec
      show upd (upd s.regs 15 _) (nibble2_usize s) _ 15 = 0 ∨
        upd (upd s.regs 15 _) (nibble2_usize s) _ 15 = 1
      rw [upd_of_ne _ _ (Ne.symm hx15), upd_self]
      have hb := hwf (nibble2_usize s)
      rw [Nat.shiftRight_eq_div_pow]
      omega
  · rw [execute_eq_right_shift rng s h1 h2 h5] at hexec
    injection hexec with hexec
    subst hexec
    show upd (upd s.regs 15 _) (nibble2_usize s) _ 15 = 0 ∨
      upd (upd s.regs 15 _) (nibble2_usize s) _ 15 = 1
    by_cases hx : nibble2_usize s = 15
    · rw [upd_of_eq _ _ (Eq.symm hx)]
      rw [hx, upd_self, Nat.and_one_is_mod, Nat.shiftRight_eq_div_pow]
      omega
    · rw [upd_of_ne _ _ (Ne.symm hx), upd_self, Nat.and_one_is_mod]
      omega
  · rw [execute_eq_draw_sprite rng s h1 h2] at hexec
    exact (draw_sprite_flag s t hexec).1

theorem c2_flag_amended_witness :
    ((∀ k, c4state.regs k < 256) ∧
      (0x8000 ≤ c4state.opcode ∧ c4state.opcode ≤ 0x8FFF ∧ lower_4_val c4state = 0x5 ∧
        nibble2_usize c4state ≠ 15)) ∧
    ((okState (execute 0 c4state)).regs 15 = 0 ∨ (okState (execute 0 c4state)).regs 15 = 1) :=
  ⟨⟨fun k => by
      show (if k = 1 then 3 else if k = 0 then 5 else 0) < 256
      split_ifs <;> omega, by decide, by decide, by decide, by decide⟩,
    c2_flag_amended 0 c4state (okState (execute 0 c4state))
      (fun k => by
        show (if k = 1 then 3 else if k = 0 then 5 else 0) < 256
        split_ifs <;> omega)
      (Or.inl ⟨by decide, by decide, Or.inr (Or.inl (by decide)), by decide⟩) rfl⟩

/-- C2 (counterexample): executing the arithmetic add 8F04 - destination
X is VF - from VF = 3, V0 = 4 leaves VF = 7, which is neither 0 nor 1. -/
theorem c2_flag_counterexample :
    isOkC (execute 0 c2state) = true ∧
    regsAfter (execute 0 c2state) 15 ≠ 0 ∧ regsAfter (execute 0 c2state) 15 ≠ 1 := by
  refine ⟨by decide, by decide, by decide⟩

end Chip8

namespace Chip8

/-- One pixel store of the write-back loop, at a row base of x = 60:
the store lands at the linear index 60 + k past the base, spilling into
the following row for k greater than 3. -/
theorem writePix_at (g : Nat → Bool) (vy k : Nat) (v : Bool) (hvy : vy ≤ 30) (hk : k < 8) :
    writePix g (vy * 64 + 60) k v = upd g (vy * 64 + 60 + k) v := by
  simp only [writePix, index_to_coords, coords_to_index, GFX_COLS, GFX_ROWS]
  have e1 : (vy * 64 + 60) % 64 = 60 := by omega
  have e2 : (vy * 64 + 60) / 64 = vy := by omega
  rw [e1, e2]
  rw [show (vy + (60 + k) / 64) * 64 + (60 + k) % 64 = vy * 64 + 60 + k from by omega]
  rw [if_yes (by omega)]

/-- The full row write at x = 60 is the chain of eight consecutive
linear-index stores. -/
theorem writeRow60_eq (g : Nat → Bool) (vy : Nat) (hvy : vy ≤ 30) (dr : List Bool) :
    List.foldl (fun gg k => writePix gg (vy * 64 + 60) k (dr.getD k false)) g (List.range 8)
      = upd (upd (upd (upd (upd (upd (upd (upd g
          (vy * 64 + 60 + 0) (dr.getD 0 false))
          (vy * 64 + 60 + 1) (dr.getD 1 false))
          (vy * 64 + 60 + 2) (dr.getD 2 false))
          (vy * 64 + 60 + 3) (dr.getD 3 false))
          (vy * 64 + 60 + 4) (dr.getD 4 false))
          (vy * 64 + 60 + 5) (dr.getD 5 false))
          (vy * 64 + 60 + 6) (dr.getD 6 false))
          (vy * 64 + 60 + 7) (dr.getD 7 false) := by
  rw [show List.range 8 = [0, 1, 2, 3, 4, 5, 6, 7] from rfl]
  simp only [List.foldl_cons, List.foldl_nil]
  rw [writePix_at g vy 0 _ hvy (by omega), writePix_at _ vy 1 _ hvy (by omega),
    writePix_at _ vy 2 _ hvy (by omega), writePix_at _ vy 3 _ hvy (by omega),
    writePix_at _ vy 4 _ hvy (by omega), writePix_at _ vy 5 _ hvy (by omega),
    writePix_at _ vy 6 _ hvy (by omega), writePix_at _ vy 7 _ hvy (by omega)]

/-- Reading a stored pixel back from the row write at x = 60. -/
theorem writeRow60_read_hit (g : Nat → Bool) (vy : Nat) (hvy : vy ≤ 30) (dr : List Bool)
    (c : Nat) (hc : c < 8) :
    (List.foldl (fun gg k => writePix gg (vy * 64 + 60) k (dr.getD k false)) g (List.range 8))
      (vy * 64 + 60 + c) = dr.getD c false := by
  rw [writeRow60_eq g vy hvy]
  interval_cases c <;>
    · simp only [upd]
      split_ifs <;> first | rfl | omega

/-- Reading an untouched pixel back from the row write at x = 60. -/
theorem writeRow60_read_miss (g : Nat → Bool) (vy : Nat) (hvy : vy ≤ 30) (dr : List Bool)
    (j : Nat) (hj : ∀ c, c < 8 → j ≠ vy * 64 + 60 + c) :
    (List.foldl (fun gg k => writePix gg (vy * 64 + 60) k (dr.getD k false)) g (List.range 8)) j
      = g j := by
  rw [writeRow60_eq g vy hvy]
  rw [upd_of_ne _ _ (hj 7 (by omega)), upd_of_ne _ _ (hj 6 (by omega)),
    upd_of_ne _ _ (hj 5 (by omega)), upd_of_ne _ _ (hj 4 (by omega)),
    upd_of_ne _ _ (hj 3 (by omega)), upd_of_ne _ _ (hj 2 (by omega)),
    upd_of_ne _ _ (hj 1 (by omega)), upd_of_ne _ _ (hj 0 (by omega))]

/-- C1 (amended): draw origins are not reduced modulo the grid - an X
origin beyond 63 or a Y origin beyond 31 makes the draw fail - and a
sprite row drawn at origin x = 60 with an all-set 0xFF byte XORs into
columns 60-63 of its row and columns 0-3 of the row below it
(consecutive linear indices), leaving every other pixel, in particular
columns 0-3 of the origin row, unchanged. -/
theorem c1_draw_spill_amended :
    (∀ (rng : Nat) (s : CPU), 0xD000 ≤ s.opcode → s.opcode ≤ 0xDFFF →
      (63 < s.regs (nibble2_usize s) ∨ 31 < s.regs (nibble3_usize s)) →
      execute rng s = .error .fault) ∧
    (∀ (rng : Nat) (s t : CPU) (vy : Nat),
      0xD000 ≤ s.opcode → s.opcode ≤ 0xDFFF →
      s.regs (nibble2_usize s) = 60 → s.regs (nibble3_usize s) = vy → vy ≤ 30 →
      lower_4_val s = 1 → s.mem s.i = 0xFF → s.i < MEM_SIZE →
      execute rng s = .ok t →
      (∀ c, c < 4 → t.gfx (coords_to_index (60 + c) vy) = !(s.gfx (coords_to_index (60 + c) vy))) ∧
      (∀ c, c < 4 → t.gfx (coords_to_index c (vy + 1)) = !(s.gfx (coords_to_index c (vy + 1)))) ∧
      (∀ j, (∀ c, c < 8 → j ≠ vy * 64 + 60 + c) → t.gfx j = s.gfx j)) := by
  constructor
  · intro rng s h1 h2 hxy
    rw [execute_eq_draw_sprite rng s h1 h2]
    simp only [draw_sprite]
    by_cases hvx63 : 63 < s.regs (nibble2_usize s)
    · rw [if_pos (show s.regs (nibble2_usize s) > GFX_COLS - 1 from by
        simp only [GFX_COLS]; omega)]
    · have hvy31 : 31 < s.regs (nibble3_usize s) := by
        rcases hxy with h | h
        · omega
        · exact h
      rw [if_neg (show ¬(s.regs (nibble2_usize s) > GFX_COLS - 1) from by
        simp only [GFX_COLS]; omega)]
      rw [if_pos (show s.regs (nibble3_usize s) > GFX_ROWS - 1 from by
        simp only [GFX_ROWS]; omega)]
  · intro rng s t vy h1 h2 hvx hvy hvyb h4 hmem hib hexec
    rw [execute_eq_draw_sprite rng s h1 h2] at hexec
    simp only [draw_sprite] at hexec
    rw [hvx, hvy, h4] at hexec
    rw [if_neg (show ¬((60:Nat) > GFX_COLS - 1) from by decide)] at hexec
    rw [if_neg (show ¬(vy > GFX_ROWS - 1) from by simp only [GFX_ROWS]; omega)] at hexec
    simp only [drawGo] at hexec
    rw [if_pos hib] at hexec
    simp only [coords_to_index, GFX_COLS] at hexec
    have hsr : fetch_sprite_row s s.i = [true, true, true, true, true, true, true, true] := by
      simp only [fetch_sprite_row, hmem]
      decide
    rw [hsr] at hexec
    simp only [List.getD_cons_zero, List.getD_cons_succ, Bool.true_xor] at hexec
    rw [show GFX_ROWS * 64 = 2048 from rfl] at hexec
    rw [Nat.mod_eq_of_lt (show vy * 64 + 60 < 2048 by omega),
      Nat.mod_eq_of_lt (show vy * 64 + 60 + 1 < 2048 by omega),
      Nat.mod_eq_of_lt (show vy * 64 + 60 + 2 < 2048 by omega),
      Nat.mod_eq_of_lt (show vy * 64 + 60 + 3 < 2048 by omega),
      Nat.mod_eq_of_lt (show vy * 64 + 60 + 4 < 2048 by omega),
      Nat.mod_eq_of_lt (show vy * 64 + 60 + 5 < 2048 by omega),
      Nat.mod_eq_of_lt (show vy * 64 + 60 + 6 < 2048 by omega),
      Nat.mod_eq_of_lt (show vy * 64 + 60 + 7 < 2048 by omega)] at hexec
    obtain ⟨top, tmem, tregs, tkeys, tgfx, tstack, tsp, ti, tpc, tdt, tst, tik⟩ := t
    injection hexec with hexec
    injection hexec with hop hmem2 hregs hkeys hgfx hstack hsp2 hi2 hpc2 hdt hst hik
    refine ⟨?_, ?_, ?_⟩
    · intro c hc
      show tgfx (coords_to_index (60 + c) vy) = !(s.gfx (coords_to_index (60 + c) vy))
      rw [← hgfx]
      simp only [coords_to_index, GFX_COLS]
      rw [show vy * 64 + (60 + c) = vy * 64 + 60 + c from by omega]
      rw [writeRow60_read_hit s.gfx vy hvyb _ c (by omega)]
      interval_cases c <;>
        simp only [List.getD_cons_zero, List.getD_cons_succ, Nat.add_zero]
    · intro c hc
      show tgfx (coords_to_index c (vy + 1)) = !(s.gfx (coords_to_index c (vy + 1)))
      rw [← hgfx]
      simp only [coords_to_index, GFX_COLS]
      rw [show (vy + 1) * 64 + c = vy * 64 + 60 + (4 + c) from by omega]
      rw [writeRow60_read_hit s.gfx vy hvyb _ (4 + c) (by omega)]
      interval_cases c <;>
        simp only [List.getD_cons_zero, List.getD_cons_succ, Nat.add_zero]
    · intro j hj
      show tgfx j = s.gfx j
      rw [← hgfx]
      exact writeRow60_read_miss s.gfx vy hvyb _ j hj

theorem c1_draw_spill_amended_witness :
    execute 0 { c1state with regs := upd c1state.regs 0 70 } = .error .fault ∧
    execute 0 { c1state with regs := upd (upd c1state.regs 0 10) 1 40 } = .error .fault ∧
    (okState (execute 0 c1state)).gfx (coords_to_index 60 0) = !(c1state.gfx (coords_to_index 60 0)) ∧
    (okState (execute 0 c1state)).gfx (coords_to_index 0 1) = !(c1state.gfx (coords_to_index 0 1)) := by
  refine ⟨?_, ?_, ?_, ?_⟩
  · exact c1_draw_spill_amended.1 0 _ (by decide) (by decide) (Or.inl (by decide))
  · exact c1_draw_spill_amended.1 0 _ (by decide) (by decide) (Or.inr (by decide))
  · exact (c1_draw_spill_amended.2 0 c1state (okState (execute 0 c1state)) 0 (by decide)
      (by decide) (by decide) (by decide) (by decide) (by decide) (by decide) (by decide)
      rfl).1 0 (by decide)
  · exact (c1_draw_spill_amended.2 0 c1state (okState (execute 0 c1state)) 0 (by decide)
      (by decide) (by decide) (by decide) (by decide) (by decide) (by decide) (by decide)
      rfl).2.1 0 (by decide)

/-- C1 (counterexample): drawing an all-set 8x1 sprite at origin
(60, 0) on a blank screen sets column 60 of row 0 and column 0 of row 1
but leaves column 0 of row 0 clear - the columns past the right edge do
not wrap into the same row. -/
theorem c1_wrap_counterexample :
    isOkC (execute 0 c1state) = true ∧
    gfxAfter (execute 0 c1state) 60 = true ∧
    gfxAfter (execute 0 c1state) 64 = true ∧
    gfxAfter (execute 0 c1state) 0 = false := by
  refine ⟨by decide, by decide, by decide, by decide⟩

end Chip8

namespace Chip8

theorem store_bcd_frame (s t : CPU) (h : store_bcd s = .ok t) :
    t.pc = s.pc ∧ t.stack = s.stack := by
  unfold store_bcd at h
  by_cases hb : s.i + 2 < MEM_SIZE
  · rw [if_pos hb] at h
    injection h with h
    subst h
    exact ⟨rfl, rfl⟩
  · rw [if_neg hb] at h
    cases h

theorem reg_dump_frame (s t : CPU) (h : reg_dump s = .ok t) :
    t.pc = s.pc ∧ t.stack = s.stack := by
  unfold reg_dump at h
  by_cases hb : s.i + nibble2_usize s < MEM_SIZE
  · rw [if_pos hb] at h
    injection h with h
    subst h
    exact ⟨rfl, rfl⟩
  · rw [if_neg hb] at h
    cases h

theorem reg_load_frame (s t : CPU) (h : reg_load s = .ok t) :
    t.pc = s.pc ∧ t.stack = s.stack := by
  unfold reg_load at h
  by_cases hb : s.i + nibble2_usize s < MEM_SIZE
  · rw [if_pos hb] at h
    injection h with h
    subst h
    exact ⟨rfl, rfl⟩
  · rw [if_neg hb] at h
    cases h

theorem skip_if_key_frame (s t : CPU) (h : skip_if_key s = .ok t) :
    (t.pc = s.pc ∨ t.pc = s.pc + 2) ∧ t.stack = s.stack := by
  unfold skip_if_key at h
  by_cases hb : s.regs (nibble2_usize s) < 16
  · rw [if_pos hb] at h
    injection h with h
    subst h
    split_ifs
    · exact ⟨Or.inr rfl, rfl⟩
    · exact ⟨Or.inl rfl, rfl⟩
  · rw [if_neg hb] at h
    cases h

theorem skip_if_not_key_frame (s t : CPU) (h : skip_if_not_key s = .ok t) :
    (t.pc = s.pc ∨ t.pc = s.pc + 2) ∧ t.stack = s.stack := by
  unfold skip_if_not_key at h
  by_cases hb : s.regs (nibble2_usize s) < 16
  · rw [if_pos hb] at h
    injection h with h
    subst h
    split_ifs
    · exact ⟨Or.inr rfl, rfl⟩
    · exact ⟨Or.inl rfl, rfl⟩
  · rw [if_neg hb] at h
    cases h

theorem get_key_frame (s t : CPU) (h : get_key s = .ok t) :
    2 ≤ s.pc ∧ (t.pc = s.pc - 2 ∨ t.pc = s.pc) ∧ t.stack = s.stack := by
  unfold get_key at h
  by_cases hb : s.pc < 2
  · rw [if_pos hb] at h
    cases h
  rw [if_neg hb] at h
  refine ⟨by omega, ?_⟩
  by_cases hl : s.ignore_keypress = true
  · rw [if_pos hl] at h
    injection h with h
    subst h
    exact ⟨Or.inl rfl, rfl⟩
  · rw [if_neg hl] at h
    cases hfk : firstKey s.keys 0 16 with
    | none =>
      rw [hfk] at h
      injection h with h
      subst h
      exact ⟨Or.inl rfl, rfl⟩
    | some k =>
      rw [hfk] at h
      injection h with h
      subst h
      refine ⟨Or.inr ?_, rfl⟩
      show s.pc - 2 + 2 = s.pc
      omega

theorem draw_sprite_frame (s t : CPU) (h : draw_sprite s = .ok t) :
    t.pc = s.pc ∧ t.stack = s.stack := by
  unfold draw_sprite at h
  by_cases hx : s.regs (nibble2_usize s) > GFX_COLS - 1
  · rw [if_pos hx] at h
    cases h
  rw [if_neg hx] at h
  by_cases hy : s.regs (nibble3_usize s) > GFX_ROWS - 1
  · rw [if_pos hy] at h
    cases h
  rw [if_neg hy] at h
  have hfr := drawGo_frame _ _ _ _ _ _ _ h
  exact ⟨hfr.1, hfr.2.1⟩

theorem subroutine_return_frame (s t : CPU) (h : subroutine_return s = .ok t) :
    s.sp - 1 < 16 ∧ t.pc = s.stack (s.sp - 1) ∧ t.stack = s.stack := by
  unfold subroutine_return at h
  by_cases h1 : s.sp = 0
  · rw [if_pos h1] at h
    cases h
  rw [if_neg h1] at h
  by_cases h2 : s.sp - 1 < 16
  · rw [if_pos h2] at h
    injection h with h
    subst h
    exact ⟨h2, rfl, rfl⟩
  · rw [if_neg h2] at h
    cases h

theorem subroutine_call_frame (s t : CPU) (h : subroutine_call s = .ok t) :
    t.pc = s.opcode &&& 0xFFF ∧ t.stack = upd s.stack s.sp s.pc := by
  unfold subroutine_call at h
  by_cases h1 : s.sp < 16
  · rw [if_pos h1] at h
    injection h with h
    subst h
    exact ⟨rfl, rfl⟩
  · rw [if_neg h1] at h
    cases h
theorem execute_even (rng : Nat) (s1 t : CPU) (hexec : execute rng s1 = .ok t)
    (hpc : s1.pc % 2 = 0) (hstk : ∀ k, k < 16 → s1.stack k % 2 = 0)
    (hA : s1.opcode ≤ 0x2FFF → lower_12_val s1 % 2 = 0)
    (hB : 0xB000 ≤ s1.opcode → s1.opcode ≤ 0xBFFF → (lower_12_val s1 + s1.regs 0) % 2 = 0) :
    t.pc % 2 = 0 ∧ ∀ k, k < 16 → t.stack k % 2 = 0 := by
  unfold execute at hexec
  by_cases c1 : s1.opcode = 0x00E0
  · rw [if_pos c1] at hexec
    injection hexec with h
    subst h
    exact ⟨hpc, hstk⟩
  rw [if_neg c1] at hexec
  by_cases c2 : s1.opcode = 0x00EE
  · rw [if_pos c2] at hexec
    obtain ⟨hk, hpcE, hstE⟩ := subroutine_return_frame s1 t hexec
    refine ⟨?_, ?_⟩
    · rw [hpcE]
      exact hstk _ hk
    · intro k hk2
      rw [hstE]
      exact hstk k hk2
  rw [if_neg c2] at hexec
  by_cases c3 : s1.opcode ≤ 0x0FFF
  · rw [if_pos c3] at hexec
    injection hexec with h
    subst h
    exact ⟨hA (by omega), hstk⟩
  rw [if_neg c3] at hexec
  by_cases c4 : 0x1000 ≤ s1.opcode ∧ s1.opcode ≤ 0x1FFF
  · rw [if_pos c4] at hexec
    injection hexec with h
    subst h
    exact ⟨hA (by omega), hstk⟩
  rw [if_neg c4] at hexec
  by_cases c5 : 0x2000 ≤ s1.opcode ∧ s1.opcode ≤ 0x2FFF
  · rw [if_pos c5] at hexec
    obtain ⟨hpcE, hstE⟩ := subroutine_call_frame s1 t hexec
    refine ⟨?_, ?_⟩
    · rw [hpcE]
      exact hA (by omega)
    · intro k hk2
      rw [hstE]
      show upd s1.stack s1.sp s1.pc k % 2 = 0
      unfold upd
      split_ifs
      · exact hpc
      · exact hstk k hk2
  rw [if_neg c5] at hexec
  by_cases c6 : 0x3000 ≤ s1.opcode ∧ s1.opcode ≤ 0x3FFF
  · rw [if_pos c6] at hexec
    injection hexec with h
    subst h
    unfold skip_if
    split_ifs
    · exact ⟨by show (s1.pc + 2) % 2 = 0; omega, hstk⟩
    · exact ⟨hpc, hstk⟩
  rw [if_neg c6] at hexec
  by_cases c7 : 0x4000 ≤ s1.opcode ∧ s1.opcode ≤ 0x4FFF
  · rw [if_pos c7] at hexec
    injection hexec with h
    subst h
    unfold skip_if_not
    split_ifs
    · exact ⟨by show (s1.pc + 2) % 2 = 0; omega, hstk⟩
    · exact ⟨hpc, hstk⟩
  rw [if_neg c7] at hexec
  by_cases c8 : 0x5000 ≤ s1.opcode ∧ s1.opcode ≤ 0x5FF0
  · rw [if_pos c8] at hexec
    injection hexec with h
    subst h
    unfold skip_if_xy_eq
    split_ifs
    · exact ⟨by show (s1.pc + 2) % 2 = 0; omega, hstk⟩
    · exact ⟨hpc, hstk⟩
  rw [if_neg c8] at hexec
  by_cases c9 : 0x6000 ≤ s1.opcode ∧ s1.opcode ≤ 0x6FFF
  · rw [if_pos c9] at hexec
    injection hexec with h
    subst h
    exact ⟨hpc, hstk⟩
  rw [if_neg c9] at hexec
  by_cases c10 : 0x7000 ≤ s1.opcode ∧ s1.opcode ≤ 0x7FFF
  · rw [if_pos c10] at hexec
    injection hexec with h
    subst h
    exact ⟨hpc, hstk⟩
  rw [if_neg c10] at hexec
  by_cases c11 : 0x8000 ≤ s1.opcode ∧ s1.opcode ≤ 0x8FFF
  · rw [if_pos c11] at hexec
    by_cases d0 : lower_4_val s1 = 0x0
    · rw [if_pos d0] at hexec
      injection hexec with h
      subst h
      exact ⟨hpc, hstk⟩
    rw [if_neg d0] at hexec
    by_cases d1 : lower_4_val s1 = 0x1
    · rw [if_pos d1] at hexec
      injection hexec with h
      subst h
      exact ⟨hpc, hstk⟩
    rw [if_neg d1] at hexec
    by_cases d2 : lower_4_val s1 = 0x2
    · rw [if_pos d2] at hexec
      injection hexec with h
      subst h
      exact ⟨hpc, hstk⟩
    rw [if_neg d2] at hexec
    by_cases d3 : lower_4_val s1 = 0x3
    · rw [if_pos d3] at hexec
      injection hexec with h
      subst h
      exact ⟨hpc, hstk⟩
    rw [if_neg d3] at hexec
    by_cases d4 : lower_4_val s1 = 0x4
    · rw [if_pos d4] at hexec
      injection hexec with h
      subst h
      exact ⟨hpc, hstk⟩
    rw [if_neg d4] at hexec
    by_cases d5 : lower_4_val s1 = 0x5
    · rw [if_pos d5] at hexec
      injection hexec with h
      subst h
      exact ⟨hpc, hstk⟩
    rw [if_neg d5] at hexec
    by_cases d6 : lower_4_val s1 = 0x6
    · rw [if_pos d6] at hexec
      injection hexec with h
      subst h
      exact ⟨hpc, hstk⟩
    rw [if_neg d6] at hexec
    by_cases d7 : lower_4_val s1 = 0x7
    · rw [if_pos d7] at hexec
      injection hexec with h
      subst h
      exact ⟨hpc, hstk⟩
    rw [if_neg d7] at hexec
    by_cases dE : lower_4_val s1 = 0xE
    · rw [if_pos dE] at hexec
      injection hexec with h
      subst h
      exact ⟨hpc, hstk⟩
    rw [if_neg dE] at hexec
    cases hexec
  rw [if_neg c11] at hexec
  by_cases c12 : 0x9000 ≤ s1.opcode ∧ s1.opcode ≤ 0x9FF0
  · rw [if_pos c12] at hexec
    injection hexec with h
    subst h
    unfold skip_if_xy_neq
    split_ifs
    · exact ⟨by show (s1.pc + 2) % 2 = 0; omega, hstk⟩
    · exact ⟨hpc, hstk⟩
  rw [if_neg c12] at hexec
  by_cases c13 : 0xA000 ≤ s1.opcode ∧ s1.opcode ≤ 0xAFFF
  · rw [if_pos c13] at hexec
    injection hexec with h
    subst h
    exact ⟨hpc, hstk⟩
  rw [if_neg c13] at hexec
  by_cases c14 : 0xB000 ≤ s1.opcode ∧ s1.opcode ≤ 0xBFFF
  · rw [if_pos c14] at hexec
    injection hexec with h
    subst h
    exact ⟨hB (by omega) (by omega), hstk⟩
  rw [if_neg c14] at hexec
  by_cases c15 : 0xC000 ≤ s1.opcode ∧ s1.opcode ≤ 0xCFFF
  · rw [if_pos c15] at hexec
    injection hexec with h
    subst h
    exact ⟨hpc, hstk⟩
  rw [if_neg c15] at hexec
  by_cases c16 : 0xD000 ≤ s1.opcode ∧ s1.opcode ≤ 0xDFFF
  · rw [if_pos c16] at hexec
    obtain ⟨hpcE, hstE⟩ := draw_sprite_frame s1 t hexec
    refine ⟨?_, ?_⟩
    · rw [hpcE]
      exact hpc
    · intro k hk2
      rw [hstE]
      exact hstk k hk2
  rw [if_neg c16] at hexec
  by_cases c17 : 0xE000 ≤ s1.opcode ∧ s1.opcode ≤ 0xEFFF
  · rw [if_pos c17] at hexec
    by_cases e1 : lower_8_val s1 = 0x9E
    · rw [if_pos e1] at hexec
      obtain ⟨hor, hstE⟩ := skip_if_key_frame s1 t hexec
      refine ⟨?_, ?_⟩
      · rcases hor with h | h <;> rw [h] <;> omega
      · intro k hk2
        rw [hstE]
        exact hstk k hk2
    rw [if_neg e1] at hexec
    by_cases e2 : lower_8_val s1 = 0xA1
    · rw [if_pos e2] at hexec
      obtain ⟨hor, hstE⟩ := skip_if_not_key_frame s1 t hexec
      refine ⟨?_, ?_⟩
      · rcases hor with h | h <;> rw [h] <;> omega
      · intro k hk2
        rw [hstE]
        exact hstk k hk2
    rw [if_neg e2] at hexec
    cases hexec
  rw [if_neg c17] at hexec
  by_cases c18 : 0xF000 ≤ s1.opcode ∧ s1.opcode ≤ 0xFFFF
  · rw [if_pos c18] at hexec
    by_cases f1 : lower_8_val s1 = 0x07
    · rw [if_pos f1] at hexec
      injection hexec with h
      subst h
      exact ⟨hpc, hstk⟩
    rw [if_neg f1] at hexec
    by_cases f2 : lower_8_val s1 = 0x0A
    · rw [if_pos f2] at hexec
      obtain ⟨h2le, hor, hstE⟩ := get_key_frame s1 t hexec
      refine ⟨?_, ?_⟩
      · rcases hor with h | h <;> rw [h] <;> omega
      · intro k hk2
        rw [hstE]
        exact hstk k hk2
    rw [if_neg f2] at hexec
    by_cases f3 : lower_8_val s1 = 0x15
    · rw [if_pos f3] at hexec
      injection hexec with h
      subst h
      exact ⟨hpc, hstk⟩
    rw [if_neg f3] at hexec
    by_cases f4 : lower_8_val s1 = 0x18
    · rw [if_pos f4] at hexec
      injection hexec with h
      subst h
      exact ⟨hpc, hstk⟩
    rw [if_neg f4] at hexec
    by_cases f5 : lower_8_val s1 = 0x1E
    · rw [if_pos f5] at hexec
      injection hexec with h
      subst h
      exact ⟨hpc, hstk⟩
    rw [if_neg f5] at hexec
    by_cases f6 : lower_8_val s1 = 0x29
    · rw [if_pos f6] at hexec
      injection hexec with h
      subst h
      exact ⟨hpc, hstk⟩
    rw [if_neg f6] at hexec
    by_cases f7 : lower_8_val s1 = 0x33
    · rw [if_pos f7] at hexec
      obtain ⟨hpcE, hstE⟩ := store_bcd_frame s1 t hexec
      refine ⟨?_, ?_⟩
      · rw [hpcE]
        exact hpc
      · intro k hk2
        rw [hstE]
        exact hstk k hk2
    rw [if_neg f7] at hexec
    by_cases f8 : lower_8_val s1 = 0x55
    · rw [if_pos f8] at hexec
      obtain ⟨hpcE, hstE⟩ := reg_dump_frame s1 t hexec
      refine ⟨?_, ?_⟩
      · rw [hpcE]
        exact hpc
      · intro k hk2
        rw [hstE]
        exact hstk k hk2
    rw [if_neg f8] at hexec
    by_cases f9 : lower_8_val s1 = 0x65
    · rw [if_pos f9] at hexec
      obtain ⟨hpcE, hstE⟩ := reg_load_frame s1 t hexec
      refine ⟨?_, ?_⟩
      · rw [hpcE]
        exact hpc
      · intro k hk2
        rw [hstE]
        exact hstk k hk2
    rw [if_neg f9] at hexec
    cases hexec
  rw [if_neg c18] at hexec
  cases hexec

/-- C6 (amended): the program counter starts even at 0x200 and, under
the evenness invariant on the stack, a full fetch+execute cycle keeps
the program counter and all stack slots even provided the 12-bit
targets of the executed jump/call (families 0-2) and of
jump-with-offset (family B, plus V0) are even; an odd jump target
breaks the invariant, as the counterexample shows. -/
theorem c6_pc_even_amended :
    (chip8_new.pc = 0x200 ∧ EvenInv chip8_new) ∧
    (∀ (rng : Nat) (s s1 t : CPU),
      fetch s = .ok s1 → execute rng s1 = .ok t →
      EvenInv s →
      (s1.opcode ≤ 0x2FFF → lower_12_val s1 % 2 = 0) →
      (0xB000 ≤ s1.opcode → s1.opcode ≤ 0xBFFF → (lower_12_val s1 + s1.regs 0) % 2 = 0) →
      EvenInv t) := by
  constructor
  · exact ⟨rfl, rfl, fun k _ => rfl⟩
  · intro rng s s1 t hfetch hexec hinv hA hB
    obtain ⟨hpc, hstk⟩ := hinv
    unfold fetch at hfetch
    by_cases hb : s.pc + 1 < MEM_SIZE
    · rw [if_pos hb] at hfetch
      injection hfetch with hfetch
      subst hfetch
      exact execute_even rng _ t hexec (by show (s.pc + 2) % 2 = 0; omega) hstk hA hB
    · rw [if_neg hb] at hfetch
      cases hfetch

theorem c6_pc_even_amended_witness :
    EvenInv (okState (perform_cycle 0 c6even)) :=
  c6_pc_even_amended.2 0 c6even (okState (fetch c6even)) (okState (perform_cycle 0 c6even))
    rfl rfl ⟨rfl, fun k _ => rfl⟩ (by decide) (by decide)

/-- C6 (counterexample): loading the two-byte program 12 01 into a
fresh machine and running one cycle - a reachable state - leaves the
program counter at the odd address 0x201. -/
theorem c6_pc_odd_counterexample :
    isOkC (perform_cycle 0 c6state) = true ∧
    pcAfter (perform_cycle 0 c6state) = 0x201 ∧
    pcAfter (perform_cycle 0 c6state) % 2 = 1 := by
  refine ⟨by decide, by decide, by decide⟩

end Chip8
